import Mathlib

/-!
Shallow embedding of the procedural track-path and adaptive-corridor-mesh
generator of `src/gnodes_builder/templates.py`, together with theorems
settling the specification claims about it.

Modelling conventions:
* Python floats become real numbers (`ℝ`); `float('inf')` becomes `⊤` in
  `WithTop ℝ`.
* Python `%` on possibly negative indices becomes `cyc` (integer `emod`,
  which agrees with Python's `%` for a positive modulus).
* `int()` truncation toward zero becomes `pyInt`.
* Functions that `raise` are embedded with `Except String`.
* The in-place point mutation of `_limit_path_curvature` is embedded as an
  explicit left fold threading the point list through the sweep, and the
  `while` of `_resample_path_uniform` as a fuel-indexed recursion whose fuel
  provably suffices to drain the loop guard.
-/

namespace TrackGen

noncomputable section

abbrev Point : Type := ℝ × ℝ × ℝ

/-- Python-style modular index `j % n` (non-negative for positive `n`),
used for all circular indexing in the source. -/
def cyc (n : ℕ) (j : ℤ) : ℕ := (j % (n : ℤ)).toNat

/-- List access with a default point; every use in the embedding is
in-bounds, the default only makes the function total. -/
def pget (l : List Point) (k : ℕ) : Point := l.getD k (0, 0, 0)

/-- Python `int()` truncation toward zero. -/
def pyInt (x : ℝ) : ℤ := if 0 ≤ x then ⌊x⌋ else ⌈x⌉

/-- Python `math.atan2 y x`, with the branch of `Complex.arg`:
values in `(-π, π]`. -/
def atan2 (y x : ℝ) : ℝ := Complex.arg ⟨x, y⟩

/-- Embeds `_compute_curvature_radius`: circumradius (by Heron's formula) of
the triangle formed by sample `index` and its two circular neighbours, in the
xy-plane only; `⊤` stands for the source's `float('inf')` returned for fewer
than 3 points, a non-positive Heron square, or a near-zero area. -/
def _compute_curvature_radius (path : List Point) (index : ℕ) : WithTop ℝ :=
  let n := path.length
  if n < 3 then ⊤ else
  let p0 := pget path (cyc n ((index : ℤ) - 1))
  let p1 := pget path index
  let p2 := pget path (cyc n ((index : ℤ) + 1))
  let a := Real.sqrt ((p1.1 - p2.1) ^ 2 + (p1.2.1 - p2.2.1) ^ 2)
  let b := Real.sqrt ((p0.1 - p2.1) ^ 2 + (p0.2.1 - p2.2.1) ^ 2)
  let c := Real.sqrt ((p0.1 - p1.1) ^ 2 + (p0.2.1 - p1.2.1) ^ 2)
  let s := (a + b + c) / 2
  let areaSq := s * (s - a) * (s - b) * (s - c)
  if areaSq ≤ 0 then ⊤ else
  let area := Real.sqrt areaSq
  if area < 0.0001 then ⊤ else
  (((a * b * c) / (4 * area) : ℝ) : WithTop ℝ)

/-- Embeds `_compute_curvature_radii`: raw per-sample circumradii smoothed by
taking the minimum over a window of `smoothing_window` neighbours per side
(the source calls it with the default window 2). -/
def _compute_curvature_radii (path : List Point) (smoothing_window : ℕ) :
    List (WithTop ℝ) :=
  let n := path.length
  let raw := (List.range n).map (_compute_curvature_radius path)
  (List.range n).map (fun (i : ℕ) =>
    (List.range (2 * smoothing_window + 1)).foldl
      (fun m (k : ℕ) =>
        min m (raw.getD (cyc n ((i : ℤ) + (k : ℤ) - (smoothing_window : ℤ))) ⊤))
      (raw.getD i ⊤))

/-- Embeds `_get_adaptive_offsets`: per-sample left/right corridor offsets from
the smoothed curvature radius, nominal half width and turn direction sign. -/
def _get_adaptive_offsets (curvature_radius : WithTop ℝ) (half_width turn_dir : ℝ) :
    ℝ × ℝ :=
  if ((half_width * 3 : ℝ) : WithTop ℝ) < curvature_radius then (half_width, half_width)
  else
    let r := curvature_radius.untop' 0
    let safe_inner_offset := max 0.1 (min half_width (r * 0.85 - 0.1))
    if turn_dir > 0.001 then (safe_inner_offset, half_width)
    else if turn_dir < -0.001 then (half_width, safe_inner_offset)
    else (half_width, half_width)

/-- Embeds `_compute_turn_directions`: 2D cross product of the incoming and
outgoing chord at each sample (the `tangents` argument is accepted and ignored
exactly as in the source). -/
def _compute_turn_directions (path : List Point) (tangents : List (ℝ × ℝ)) : List ℝ :=
  let _ := tangents
  let n := path.length
  (List.range n).map (fun (i : ℕ) =>
    let pp := pget path (cyc n ((i : ℤ) - 1))
    let pc := pget path i
    let pn := pget path (cyc n ((i : ℤ) + 1))
    let dx1 := pc.1 - pp.1
    let dy1 := pc.2.1 - pp.2.1
    let dx2 := pn.1 - pc.1
    let dy2 := pn.2.1 - pc.2.1
    dx1 * dy2 - dy1 * dx2)

/-- Accumulated weighted sums of the first pass of `_compute_smooth_tangents`:
`(Σ dx·w, Σ dy·w, Σ w)` over window offsets `1 .. smoothing_window`. -/
def _raw_tangent_sum (path : List Point) (smoothing_window : ℕ) (i : ℕ) : ℝ × ℝ × ℝ :=
  let n := path.length
  (List.range smoothing_window).foldl
    (fun acc (k : ℕ) =>
      let off := (k : ℤ) + 1
      let pp := pget path (cyc n ((i : ℤ) - off))
      let pn := pget path (cyc n ((i : ℤ) + off))
      let w := 1 / ((k : ℝ) + 1)
      (acc.1 + (pn.1 - pp.1) * w, acc.2.1 + (pn.2.1 - pp.2.1) * w, acc.2.2 + w))
    (0, 0, 0)

/-- The window-averaged direction of the first pass of
`_compute_smooth_tangents` before normalisation (the sums divided by the
weight total when it is positive). -/
def _pre_tangent (path : List Point) (smoothing_window : ℕ) (i : ℕ) : ℝ × ℝ :=
  let s := _raw_tangent_sum path smoothing_window i
  (if s.2.2 > 0 then s.1 / s.2.2 else s.1,
   if s.2.2 > 0 then s.2.1 / s.2.2 else s.2.1)

/-- First pass of `_compute_smooth_tangents`: normalise the averaged window
direction; a vector of length `≤ 0.001` falls back to the fixed direction
`(1, 0)` of the source (line `tx_sum, ty_sum = 1.0, 0.0`). -/
def _raw_tangent (path : List Point) (smoothing_window : ℕ) (i : ℕ) : ℝ × ℝ :=
  let t := _pre_tangent path smoothing_window i
  let len := Real.sqrt (t.1 * t.1 + t.2 * t.2)
  if len > 0.001 then (t.1 / len, t.2 / len) else (1, 0)

/-- Angle unwrapping of the second smoothing pass: for differences of two
`atan2` values (which lie in `(-2π, 2π)`) each `while` loop of the source
fires at most once, so it is embedded as two conditional corrections. -/
def unwrapDiff (d : ℝ) : ℝ :=
  let d1 := if d > Real.pi then d - 2 * Real.pi else d
  if d1 < -Real.pi then d1 + 2 * Real.pi else d1

/-- Second pass of `_compute_smooth_tangents` at one index: weighted circular
average of the raw tangent angles over offsets `-2 .. 2` (`smooth_radius = 2`),
unwrapped around the centre angle, returned as `(cos, sin)`. -/
def _smooth_tangent (path : List Point) (smoothing_window : ℕ) (i : ℕ) : ℝ × ℝ :=
  let n := path.length
  let base :=
    let t := _raw_tangent path smoothing_window i
    atan2 t.2 t.1
  let acc := (List.range 5).foldl
    (fun acc (k : ℕ) =>
      let off := (k : ℤ) - 2
      let t := _raw_tangent path smoothing_window (cyc n ((i : ℤ) + off))
      let angle := atan2 t.2 t.1
      let w := 1 / (1 + ((|off| : ℤ) : ℝ))
      (acc.1 + (base + unwrapDiff (angle - base)) * w, acc.2 + w))
    ((0 : ℝ), (0 : ℝ))
  (Real.cos (acc.1 / acc.2), Real.sin (acc.1 / acc.2))

/-- Embeds `_compute_smooth_tangents`: one smoothed unit tangent per sample. -/
def _compute_smooth_tangents (path : List Point) (smoothing_window : ℕ) :
    List (ℝ × ℝ) :=
  (List.range path.length).map (_smooth_tangent path smoothing_window)

/-- Abstract mesh produced by the builders: vertex positions in creation order
(`bm.verts.new`) and quad faces as 4-tuples of vertex indices
(`bm.faces.new`). -/
structure Mesh where
  verts : List Point
  faces : List (ℕ × ℕ × ℕ × ℕ)

/-- The four vertices `_create_track_along_path` creates per sample, in source
order left-top, right-top, right-bottom, left-bottom, using the left normal
`(px, py) = (-ty, tx)` of the tangent. -/
def _track_section (p : Point) (tang : ℝ × ℝ) (left_offset right_offset thickness : ℝ) :
    List Point :=
  let px := -tang.2
  let py := tang.1
  [ (p.1 + px * left_offset, p.2.1 + py * left_offset, p.2.2 + thickness),
    (p.1 - px * right_offset, p.2.1 - py * right_offset, p.2.2 + thickness),
    (p.1 - px * right_offset, p.2.1 - py * right_offset, p.2.2),
    (p.1 + px * left_offset, p.2.1 + py * left_offset, p.2.2) ]

/-- The four quads stitched between section `i` and section `(i+1) % n`:
top, bottom, left side, right side, with section `i` occupying vertex
indices `4i .. 4i+3`. -/
def _span_faces (n i : ℕ) : List (ℕ × ℕ × ℕ × ℕ) :=
  let j := (i + 1) % n
  [ (4*i, 4*j, 4*j+1, 4*i+1),
    (4*i+3, 4*i+2, 4*j+2, 4*j+3),
    (4*i+3, 4*j+3, 4*j, 4*i),
    (4*i+1, 4*j+1, 4*j+2, 4*i+2) ]

/-- Per-sample offsets used by `_create_track_along_path`: adaptive offsets
from smoothed curvature radii (window 2) and turn directions when
`adaptive_width` is set, otherwise the symmetric half width. -/
def _track_offsets (path : List Point) (half_width : ℝ) (adaptive_width : Bool)
    (i : ℕ) : ℝ × ℝ :=
  if adaptive_width then
    _get_adaptive_offsets ((_compute_curvature_radii path 2).getD i ⊤) half_width
      ((_compute_turn_directions path
        (_compute_smooth_tangents path (max 3 (path.length / 20)))).getD i 0)
  else (half_width, half_width)

/-- The vertex list built by the per-sample loop of
`_create_track_along_path`: section `i` (4 vertices) at indices `4i .. 4i+3`,
positioned with the smoothed tangent (window `max 3 (n / 20)`) and the
per-sample offsets. -/
def _track_verts (path : List Point) (width thickness : ℝ) (adaptive_width : Bool) :
    List Point :=
  (List.range path.length).flatMap (fun i =>
    let off := _track_offsets path (width / 2) adaptive_width i
    _track_section (pget path i)
      ((_compute_smooth_tangents path (max 3 (path.length / 20))).getD i (1, 0))
      off.1 off.2 thickness)

/-- The face list built by the stitching loop of `_create_track_along_path`:
four quads per circular span. -/
def _track_faces (n : ℕ) : List (ℕ × ℕ × ℕ × ℕ) :=
  (List.range n).flatMap (_span_faces n)

/-- The mesh built by `_create_track_along_path` once the point-count guard has
passed: 4 vertices per sample and 4 quads per circular span. -/
def _track_mesh (path : List Point) (width thickness : ℝ) (adaptive_width : Bool) :
    Mesh :=
  ⟨_track_verts path width thickness adaptive_width, _track_faces path.length⟩

/-- Embeds `_create_track_along_path`: rejects paths of fewer than 3 points
(`raise ValueError`), otherwise emits the roadway mesh. -/
def _create_track_along_path (path : List Point) (width thickness : ℝ)
    (adaptive_width : Bool) : Except String Mesh :=
  if path.length < 3 then .error "track path requires at least 3 points"
  else .ok (_track_mesh path width thickness adaptive_width)

/-- The four vertices `_create_barrier_along_path` creates per sample around
the offset centreline. -/
def _barrier_section (p : Point) (tang : ℝ × ℝ)
    (actual_offset half_width base_height height : ℝ) : List Point :=
  let px := -tang.2
  let py := tang.1
  let cx := p.1 + px * actual_offset
  let cy := p.2.1 + py * actual_offset
  let cz := p.2.2 + base_height
  [ (cx + px * half_width, cy + py * half_width, cz + height),
    (cx - px * half_width, cy - py * half_width, cz + height),
    (cx - px * half_width, cy - py * half_width, cz),
    (cx + px * half_width, cy + py * half_width, cz) ]

/-- Embeds `_create_barrier_along_path` (it never raises): a symmetric ribbon
whose centreline offset follows the adaptive track edge when requested. -/
def _create_barrier_along_path (path : List Point) (off width height base_height : ℝ)
    (track_half_width : Option ℝ) (adaptive_offset : Bool) : Mesh :=
  let n := path.length
  let tangents := _compute_smooth_tangents path (max 3 (n / 20))
  let adaptive := adaptive_offset && track_half_width.isSome
  let thw := track_half_width.getD 0
  let half_width := width / 2
  let verts := (List.range n).flatMap (fun i =>
    let actual_offset :=
      if adaptive then
        let tOff := _get_adaptive_offsets ((_compute_curvature_radii path 2).getD i ⊤)
          thw ((_compute_turn_directions path tangents).getD i 0)
        if off > 0 then tOff.1 + half_width else -(tOff.2 + half_width)
      else off
    _barrier_section (pget path i) (tangents.getD i (1, 0)) actual_offset half_width
      base_height height)
  let faces := (List.range n).flatMap (_span_faces n)
  ⟨verts, faces⟩

/-- The `get_turn_angle` closure of `_limit_path_curvature`: turn angle between
the incoming and outgoing chord, average chord length, and cross product sign;
a chord shorter than `0.001` yields `(0, 0, 0)`. -/
def _turn_angle_info (points : List Point) (i : ℕ) : ℝ × ℝ × ℝ :=
  let n := points.length
  let pp := pget points (cyc n ((i : ℤ) - 1))
  let pc := pget points i
  let pn := pget points (cyc n ((i : ℤ) + 1))
  let dx1 := pc.1 - pp.1
  let dy1 := pc.2.1 - pp.2.1
  let len1 := Real.sqrt (dx1 * dx1 + dy1 * dy1)
  let dx2 := pn.1 - pc.1
  let dy2 := pn.2.1 - pc.2.1
  let len2 := Real.sqrt (dx2 * dx2 + dy2 * dy2)
  if len1 < 0.001 ∨ len2 < 0.001 then (0, 0, 0)
  else
    let ux1 := dx1 / len1
    let uy1 := dy1 / len1
    let ux2 := dx2 / len2
    let uy2 := dy2 / len2
    let dt := max (-1 : ℝ) (min 1 (ux1 * ux2 + uy1 * uy2))
    (Real.arccos dt, (len1 + len2) / 2, ux1 * uy2 - uy1 * ux2)

/-- The `get_safe_angle` closure of `_limit_path_curvature`: the safe maximum
turn angle for a local segment length, with the source's clamping of the sine
argument into `[0.05, 0.99]` and its `0.1` fallback for tiny segments. -/
def get_safe_angle (half_width segment_length : ℝ) : ℝ :=
  if segment_length < 0.001 then 0.1
  else
    let rt := segment_length / (2 * half_width)
    if rt ≥ 1 then Real.pi * 0.4
    else 2 * Real.arcsin (max 0.05 (min 0.99 (rt * 0.8)))

/-- One body execution of the inner `for i in range(n)` loop of
`_limit_path_curvature`: the state is the point list updated so far and
the running maximum excess of the current sweep. -/
def _limit_step (half_width : ℝ) (st : List Point × ℝ) (i : ℕ) : List Point × ℝ :=
  let points := st.1
  let n := points.length
  let info := _turn_angle_info points i
  let safe := get_safe_angle half_width info.2.1
  if info.1 > safe then
    let excess := info.1 - safe
    let pp := pget points (cyc n ((i : ℤ) - 1))
    let pn := pget points (cyc n ((i : ℤ) + 1))
    let pc := pget points i
    let f := min 0.3 (excess / Real.pi)
    let p2 := (pc.1 + ((pp.1 + pn.1) / 2 - pc.1) * f,
               pc.2.1 + ((pp.2.1 + pn.2.1) / 2 - pc.2.1) * f,
               pc.2.2 + ((pp.2.2 + pn.2.2) / 2 - pc.2.2) * f)
    (points.set i p2, max st.2 excess)
  else (points, st.2)

/-- The fold of `_limit_step` over the first `i` indices: the state of the
in-place sweep just before index `i` is processed. -/
def _sweep_before (half_width : ℝ) (points : List Point) (i : ℕ) : List Point × ℝ :=
  ((List.range points.length).take i).foldl (_limit_step half_width) (points, 0)

/-- One full sweep of `_limit_path_curvature`: the updated points and the
maximum excess angle recorded while the sweep ran. -/
def _limit_sweep (half_width : ℝ) (points : List Point) : List Point × ℝ :=
  (List.range points.length).foldl (_limit_step half_width) (points, 0)

/-- Iterates full sweeps (ignoring the early-exit test): the point list after
`k` unconditional sweeps. -/
def sweepIter (half_width : ℝ) : ℕ → List Point → List Point
  | 0, points => points
  | k + 1, points => sweepIter half_width k (_limit_sweep half_width points).1

/-- The `for iteration in range(max_iterations)` loop of
`_limit_path_curvature` with its early exit `if max_excess < 0.01: break`. -/
def _limit_loop (half_width : ℝ) : ℕ → List Point → List Point
  | 0, points => points
  | k + 1, points =>
    let sw := _limit_sweep half_width points
    if sw.2 < 0.01 then sw.1 else _limit_loop half_width k sw.1

/-- Embeds `_limit_path_curvature`: paths of fewer than 4 points are returned
unchanged; otherwise at most `max_iterations` relaxation sweeps run
(`half_width = track_width / 2`). -/
def _limit_path_curvature (path : List Point) (track_width : ℝ)
    (max_iterations : ℕ) : List Point :=
  if path.length < 4 then path else _limit_loop (track_width / 2) max_iterations path

/-- Embeds the closed-loop segment lengths of `_resample_path_uniform`
(3D distance from sample `i` to sample `(i+1) % n`). -/
def _segment_lengths (path : List Point) : List ℝ :=
  let n := path.length
  (List.range n).map (fun (i : ℕ) =>
    let p := pget path i
    let q := pget path ((i + 1) % n)
    Real.sqrt ((q.1 - p.1) * (q.1 - p.1) + (q.2.1 - p.2.1) * (q.2.1 - p.2.1) +
      (q.2.2 - p.2.2) * (q.2.2 - p.2.2)))

/-- Total closed-loop arc length of a path. -/
def _total_length (path : List Point) : ℝ := (_segment_lengths path).sum

/-- The inner `while` of `_resample_path_uniform`, advancing to the segment
containing the current arc position; fuel-indexed (each firing subtracts a
segment length `> 0.001`, so the fuel chosen at the call site suffices). -/
def _advance (segLens : List ℝ) (n : ℕ) : ℕ → ℕ × ℝ → ℕ × ℝ
  | 0, st => st
  | fuel + 1, st =>
    let seg := segLens.getD st.1 0
    if st.2 ≥ seg ∧ seg > 0.001 then
      _advance segLens n fuel ((st.1 + 1) % n, st.2 - seg)
    else st

/-- One iteration of the outer `for _ in range(target_points)` loop of
`_resample_path_uniform`: drain the while loop, interpolate one sample inside
the current segment, then advance the arc position by the derived spacing. -/
def _resample_step (path : List Point) (segLens : List ℝ) (spacing : ℝ)
    (st : ℕ × ℝ × List Point) : ℕ × ℝ × List Point :=
  let n := path.length
  let fuel := ⌈st.2.1 / 0.001⌉₊ + 1
  let a := _advance segLens n fuel (st.1, st.2.1)
  let seg := segLens.getD a.1 0
  let t := if seg > 0.001 then a.2 / seg else 0
  let p := pget path a.1
  let q := pget path ((a.1 + 1) % n)
  let pt := (p.1 + (q.1 - p.1) * t, p.2.1 + (q.2.1 - p.2.1) * t,
             p.2.2 + (q.2.2 - p.2.2) * t)
  (a.1, a.2 + spacing, st.2.2 ++ [pt])

/-- The target point count of `_resample_path_uniform`: with an explicit
spacing it is `max(min_points, int(total_length / target_spacing))`, otherwise
`max(min_points, n, int(total_length / 2))`. -/
def _resample_count (path : List Point) (target_spacing : Option ℝ)
    (min_points : ℕ) : ℕ :=
  (match target_spacing with
   | none => max (max (min_points : ℤ) (path.length : ℤ)) (pyInt (_total_length path / 2))
   | some ts => max (min_points : ℤ) (pyInt (_total_length path / ts))).toNat

/-- Embeds `_resample_path_uniform`: paths of fewer than 3 points are returned
unchanged; otherwise the loop is walked at the derived uniform spacing,
linearly interpolating one output sample per step. -/
def _resample_path_uniform (path : List Point) (target_spacing : Option ℝ)
    (min_points : ℕ) : List Point :=
  if path.length < 3 then path else
  let segLens := _segment_lengths path
  let tp := _resample_count path target_spacing min_points
  let spacing := _total_length path / (tp : ℝ)
  ((List.range tp).foldl (fun st _ => _resample_step path segLens spacing st)
    (0, 0, [])).2.2

/-- The Catmull-Rom basis of `generate_custom_path`. -/
def catmull_rom (p0 p1 p2 p3 t : ℝ) : ℝ :=
  0.5 * ((2 * p1) + (-p0 + p2) * t + (2 * p0 - 5 * p1 + 4 * p2 - p3) * (t * t) +
    (-p0 + 3 * p1 - 3 * p2 + p3) * (t * t * t))

/-- The `angle_diff` closure of `_estimate_section_curvature`: |sin| of the
angle between two chords, `0` for a chord shorter than `0.001`. -/
def _angle_diff_cross (dx1 dy1 dx2 dy2 : ℝ) : ℝ :=
  let len1 := Real.sqrt (dx1 * dx1 + dy1 * dy1)
  let len2 := Real.sqrt (dx2 * dx2 + dy2 * dy2)
  if len1 < 0.001 ∨ len2 < 0.001 then 0
  else |(dx1 / len1) * (dy2 / len2) - (dy1 / len1) * (dx2 / len2)|

/-- Embeds `_estimate_section_curvature`: maximum chord-direction change over
the four control points of one spline section. -/
def _estimate_section_curvature (p0 p1 p2 p3 : ℝ × ℝ) : ℝ :=
  max (_angle_diff_cross (p1.1 - p0.1) (p1.2 - p0.2) (p2.1 - p1.1) (p2.2 - p1.2))
      (_angle_diff_cross (p2.1 - p1.1) (p2.2 - p1.2) (p3.1 - p2.1) (p3.2 - p2.2))

/-- Embeds `generate_custom_path`: rejects fewer than 3 control points
(`raise ValueError`) before any interpolation, otherwise evaluates the
Catmull-Rom spline per circular section with optional adaptive subdivision. -/
def generate_custom_path (waypoints : List (ℝ × ℝ)) (height_profile : Option (List ℝ))
    (segments_per_section : ℕ) (adaptive_subdivision : Bool) :
    Except String (List Point) :=
  let n := waypoints.length
  if n < 3 then .error "at least 3 control points required"
  else
    let heights := height_profile.getD (List.replicate n 0)
    .ok ((List.range n).flatMap (fun i =>
      let p0 := waypoints.getD (cyc n ((i : ℤ) - 1)) (0, 0)
      let p1 := waypoints.getD i (0, 0)
      let p2 := waypoints.getD (cyc n ((i : ℤ) + 1)) (0, 0)
      let p3 := waypoints.getD (cyc n ((i : ℤ) + 2)) (0, 0)
      let h0 := heights.getD (cyc n ((i : ℤ) - 1)) 0
      let h1 := heights.getD i 0
      let h2 := heights.getD (cyc n ((i : ℤ) + 1)) 0
      let h3 := heights.getD (cyc n ((i : ℤ) + 2)) 0
      let actual_segments :=
        if adaptive_subdivision then
          (pyInt ((segments_per_section : ℝ) *
            min 3 (1 + _estimate_section_curvature p0 p1 p2 p3 * 2))).toNat
        else segments_per_section
      (List.range actual_segments).map (fun j =>
        let t := (j : ℝ) / (actual_segments : ℝ)
        (catmull_rom p0.1 p1.1 p2.1 p3.1 t, catmull_rom p0.2 p1.2 p2.2 p3.2 t,
         catmull_rom h0 h1 h2 h3 t))))

/-- Embeds `create_track_from_path`: optional uniform resampling at spacing
`track_width / 3` with at least 100 points, curvature limiting, translation to
`location`, roadway mesh, and optional inner/outer barriers. No parameter of
the call is validated; the only failure is the under-3-points guard of
`_create_track_along_path`. -/
def create_track_from_path (path : List Point)
    (track_width track_thickness barrier_height barrier_width : ℝ)
    (include_barriers : Bool) (location : Point) (resample : Bool) :
    Except String (List Mesh) :=
  let path1 := if resample then _resample_path_uniform path (some (track_width / 3)) 100
               else path
  let path2 := _limit_path_curvature path1 track_width 50
  let offset_path := path2.map (fun p =>
    (p.1 + location.1, p.2.1 + location.2.1, p.2.2 + location.2.2))
  match _create_track_along_path offset_path track_width track_thickness true with
  | .error e => .error e
  | .ok surface =>
    if include_barriers then
      let half_width := track_width / 2
      let outer := _create_barrier_along_path offset_path
        (half_width + barrier_width / 2) barrier_width barrier_height track_thickness
        (some half_width) true
      let inner := _create_barrier_along_path offset_path
        (-(half_width + barrier_width / 2)) barrier_width barrier_height track_thickness
        (some half_width) true
      .ok [surface, outer, inner]
    else .ok [surface]

/-- A concrete 4-sample closed square path, used to instantiate theorems about
the curvature limiter. -/
def sqPath : List Point := [(0, 0, 0), (10, 0, 0), (10, 10, 0), (0, 10, 0)]

/-- A concrete 3-sample closed path, used to instantiate theorems about the
mesh builder and the frame computer. -/
def triPath : List Point := [(0, 0, 0), (1, 0, 0), (0, 1, 0)]

/-- A degenerate 7-sample path lying on the y axis, locally palindromic around
sample 0 (`p1 = p6`, `p2 = p5`, `p3 = p4`): the weighted window sums of the
first tangent pass vanish at sample 0. -/
def palPath : List Point :=
  [(0, 0, 0), (0, 1, 0), (0, 2, 0), (0, 3, 0), (0, 3, 0), (0, 2, 0), (0, 1, 0)]

/-- The xy projection of a sample, used to state that the corridor adaptation
ignores elevation. -/
def projXY (p : Point) : ℝ × ℝ := (p.1, p.2.1)

/-- A concrete path, equal to `zPathB` in x and y but not in z. -/
def zPathA : List Point := [(0, 0, 0), (1, 0, 5), (0, 1, -2)]

/-- A concrete path, equal to `zPathA` in x and y but not in z. -/
def zPathB : List Point := [(0, 0, 1), (1, 0, 0), (0, 1, 7)]

/-- The maximum excess angle one sweep of `_limit_path_curvature` records. -/
def sweepMax (half_width : ℝ) (points : List Point) : ℝ :=
  (_limit_sweep half_width points).2

/-- A point lying on one closed-loop segment of `path`: the linear
interpolation form of the samples `_resample_path_uniform` emits. -/
def IsLerpSample (path : List Point) (q : Point) : Prop :=
  ∃ i, i < path.length ∧ ∃ t : ℝ, 0 ≤ t ∧ t ≤ 1 ∧
    q = ((pget path i).1 + ((pget path ((i + 1) % path.length)).1 - (pget path i).1) * t,
         (pget path i).2.1 +
           ((pget path ((i + 1) % path.length)).2.1 - (pget path i).2.1) * t,
         (pget path i).2.2 +
           ((pget path ((i + 1) % path.length)).2.2 - (pget path i).2.2) * t)

end

/-! ### General helper lemmas -/

theorem flatMap_length_const {α β : Type} (l : List α) (f : α → List β) (k : ℕ)
    (h : ∀ a, (f a).length = k) : (l.flatMap f).length = k * l.length := by
  induction l with
  | nil => simp
  | cons a t ih =>
    simp only [List.flatMap_cons, List.length_append, h, ih, List.length_cons]
    ring

/-! ### Case analysis of the adaptive offsets -/

theorem offsets_big (R : WithTop ℝ) (half_width turn_dir : ℝ)
    (h : ((half_width * 3 : ℝ) : WithTop ℝ) < R) :
    _get_adaptive_offsets R half_width turn_dir = (half_width, half_width) := by
  rw [_get_adaptive_offsets, if_pos h]

theorem offsets_small_left (r half_width turn_dir : ℝ) (h : r ≤ half_width * 3)
    (ht : 0.001 < turn_dir) :
    _get_adaptive_offsets (r : WithTop ℝ) half_width turn_dir =
      (max 0.1 (min half_width (r * 0.85 - 0.1)), half_width) := by
  simp only [_get_adaptive_offsets]
  rw [if_neg (not_lt.2 (WithTop.coe_le_coe.2 h)), WithTop.untop'_coe, if_pos ht]

theorem offsets_small_right (r half_width turn_dir : ℝ) (h : r ≤ half_width * 3)
    (ht : turn_dir < -0.001) :
    _get_adaptive_offsets (r : WithTop ℝ) half_width turn_dir =
      (half_width, max 0.1 (min half_width (r * 0.85 - 0.1))) := by
  simp only [_get_adaptive_offsets]
  rw [if_neg (not_lt.2 (WithTop.coe_le_coe.2 h)), WithTop.untop'_coe,
    if_neg (by linarith), if_pos ht]

theorem offsets_small_straight (r half_width turn_dir : ℝ) (h : r ≤ half_width * 3)
    (ht : |turn_dir| ≤ 0.001) :
    _get_adaptive_offsets (r : WithTop ℝ) half_width turn_dir =
      (half_width, half_width) := by
  obtain ⟨ht1, ht2⟩ := abs_le.1 ht
  simp only [_get_adaptive_offsets]
  rw [if_neg (not_lt.2 (WithTop.coe_le_coe.2 h)), WithTop.untop'_coe,
    if_neg (by linarith), if_neg (by linarith)]

/-- C3: `_get_adaptive_offsets` returns the full `half_width` on both sides
when the smoothed curvature radius exceeds `3 · half_width`; otherwise the
inside of the turn (left for a cross product above the `0.001` dead band,
right below `-0.001`) receives `max 0.1 (min half_width (R · 0.85 - 0.1))`
while the outside retains `half_width`, and a straight sample (cross product
within `±0.001`) retains `half_width` on both sides. -/
theorem adaptive_offsets_cases (R : WithTop ℝ) (r half_width turn_dir : ℝ) :
    (((half_width * 3 : ℝ) : WithTop ℝ) < R →
      _get_adaptive_offsets R half_width turn_dir = (half_width, half_width)) ∧
    (r ≤ half_width * 3 →
      (0.001 < turn_dir →
        _get_adaptive_offsets (r : WithTop ℝ) half_width turn_dir =
          (max 0.1 (min half_width (r * 0.85 - 0.1)), half_width)) ∧
      (turn_dir < -0.001 →
        _get_adaptive_offsets (r : WithTop ℝ) half_width turn_dir =
          (half_width, max 0.1 (min half_width (r * 0.85 - 0.1)))) ∧
      (|turn_dir| ≤ 0.001 →
        _get_adaptive_offsets (r : WithTop ℝ) half_width turn_dir =
          (half_width, half_width))) :=
  ⟨fun h => offsets_big R half_width turn_dir h,
   fun h => ⟨fun ht => offsets_small_left r half_width turn_dir h ht,
     fun ht => offsets_small_right r half_width turn_dir h ht,
     fun ht => offsets_small_straight r half_width turn_dir h ht⟩⟩

/-- Instantiation of the offset case analysis at a concrete input: an infinite
(`⊤`) smoothed radius yields the symmetric full half width. -/
theorem adaptive_offsets_cases_witness :
    _get_adaptive_offsets ⊤ 1 0 = (1, 1) :=
  (adaptive_offsets_cases ⊤ 0 1 0).1 (WithTop.coe_lt_top _)

/-- C4 counterexample: at radius `0.1`, `half_width = 0.05` (positive) and a
left turn, the inside offset is `max 0.1 (min 0.05 (-0.015)) = 0.1`, strictly
larger than `half_width`: the claimed bound `left_offset ≤ half_width` fails
for positive half widths below `0.1`. -/
theorem offset_exceeds_half_width_counterexample :
    0 < (0.05 : ℝ) ∧
    ¬ ((_get_adaptive_offsets ((0.1 : ℝ) : WithTop ℝ) 0.05 1).1 ≤ 0.05) := by
  refine ⟨by norm_num, ?_⟩
  rw [offsets_small_left 0.1 0.05 1 (by norm_num) (by norm_num)]
  have h1 : min (0.05 : ℝ) (0.1 * 0.85 - 0.1) = 0.1 * 0.85 - 0.1 :=
    min_eq_right (by norm_num)
  have h2 : max (0.1 : ℝ) (0.1 * 0.85 - 0.1) = 0.1 := max_eq_left (by norm_num)
  simp only [h1, h2]
  norm_num

/-- C4 amended: for every radius, turn direction and `half_width ≥ 0.1` (the
inner floor of the source), both adaptive offsets are strictly positive and
at most `half_width`. -/
theorem offsets_bounds (R : WithTop ℝ) (half_width turn_dir : ℝ)
    (h : 0.1 ≤ half_width) :
    0 < (_get_adaptive_offsets R half_width turn_dir).1 ∧
    (_get_adaptive_offsets R half_width turn_dir).1 ≤ half_width ∧
    0 < (_get_adaptive_offsets R half_width turn_dir).2 ∧
    (_get_adaptive_offsets R half_width turn_dir).2 ≤ half_width := by
  have hpos : (0 : ℝ) < half_width := lt_of_lt_of_le (by norm_num) h
  have hs1 : (0 : ℝ) < max 0.1 (min half_width ((R.untop' 0) * 0.85 - 0.1)) :=
    lt_of_lt_of_le (by norm_num) (le_max_left _ _)
  have hs2 : max 0.1 (min half_width ((R.untop' 0) * 0.85 - 0.1)) ≤ half_width :=
    max_le h (min_le_left _ _)
  simp only [_get_adaptive_offsets]
  split_ifs <;> exact ⟨by assumption, by first | exact le_refl _ | assumption,
    by assumption, by first | exact le_refl _ | assumption⟩

/-- Instantiation of the offset bounds at a concrete input. -/
theorem offsets_bounds_witness :
    0 < (_get_adaptive_offsets ⊤ 1 0).1 ∧
    (_get_adaptive_offsets ⊤ 1 0).1 ≤ 1 ∧
    0 < (_get_adaptive_offsets ⊤ 1 0).2 ∧
    (_get_adaptive_offsets ⊤ 1 0).2 ≤ 1 :=
  offsets_bounds ⊤ 1 0 (by norm_num)

/-! ### Case analysis of the safe turn angle -/

theorem safe_angle_eval_tiny (half_width L : ℝ) (h : L < 0.001) :
    get_safe_angle half_width L = 0.1 := by
  rw [get_safe_angle, if_pos h]

theorem safe_angle_eval_long (half_width L : ℝ) (h1 : ¬ L < 0.001)
    (h2 : L / (2 * half_width) ≥ 1) :
    get_safe_angle half_width L = Real.pi * 0.4 := by
  simp only [get_safe_angle]
  rw [if_neg h1, if_pos h2]

theorem safe_angle_eval_short (half_width L : ℝ) (h1 : ¬ L < 0.001)
    (h2 : ¬ L / (2 * half_width) ≥ 1) :
    get_safe_angle half_width L =
      2 * Real.arcsin (max 0.05 (min 0.99 (L / (2 * half_width) * 0.8))) := by
  simp only [get_safe_angle]
  rw [if_neg h1, if_neg h2]

/-- C2 counterexample: for a segment of length `0.01` and corridor width `1`
(`half_width = 0.5`), the source clamps the sine argument `0.8·L/W = 0.008` up
to `0.05`, so the safe angle is `2·arcsin 0.05`, not the claimed
`2·arcsin(0.8·L/W)`. -/
theorem safe_angle_counterexample :
    (0.001 : ℝ) ≤ 0.01 ∧ (0.01 : ℝ) < 2 * 0.5 ∧
    get_safe_angle 0.5 0.01 ≠ 2 * Real.arcsin (0.8 * 0.01 / (2 * 0.5)) := by
  refine ⟨by norm_num, by norm_num, ?_⟩
  rw [safe_angle_eval_short 0.5 0.01 (by norm_num) (by norm_num)]
  have h1 : min (0.99 : ℝ) (0.01 / (2 * 0.5) * 0.8) = 0.01 / (2 * 0.5) * 0.8 :=
    min_eq_right (by norm_num)
  have h2 : max (0.05 : ℝ) (0.01 / (2 * 0.5) * 0.8) = 0.05 := max_eq_left (by norm_num)
  rw [h1, h2, show (0.8 * 0.01 / (2 * 0.5) : ℝ) = 0.008 by norm_num]
  intro h
  have h3 : Real.arcsin 0.05 = Real.arcsin 0.008 := by linarith
  rw [Real.arcsin_inj (by norm_num) (by norm_num) (by norm_num) (by norm_num)] at h3
  norm_num at h3

/-- C2 amended: for positive track half width, the safe maximum turn angle of
`_limit_path_curvature` is `π · 0.4` when the local segment length reaches the
corridor width `W = 2 · half_width`, and
`2 · arcsin (clamp (0.8 · L / W) into [0.05, 0.99])` when it is below it;
segments shorter than `0.001` get the fixed fallback angle `0.1`. -/
theorem safe_angle_cases (half_width L : ℝ) (hhw : 0 < half_width) :
    (L < 0.001 → get_safe_angle half_width L = 0.1) ∧
    (0.001 ≤ L → 2 * half_width ≤ L → get_safe_angle half_width L = Real.pi * 0.4) ∧
    (0.001 ≤ L → L < 2 * half_width →
      get_safe_angle half_width L =
        2 * Real.arcsin (max 0.05 (min 0.99 (L / (2 * half_width) * 0.8)))) := by
  have h2hw : (0 : ℝ) < 2 * half_width := by linarith
  refine ⟨fun h => safe_angle_eval_tiny half_width L h, fun h1 h2 => ?_, fun h1 h2 => ?_⟩
  · exact safe_angle_eval_long half_width L (not_lt.2 h1) ((one_le_div h2hw).2 h2)
  · exact safe_angle_eval_short half_width L (not_lt.2 h1)
      (by rw [ge_iff_le, one_le_div h2hw]; exact not_le.2 h2)

/-- Instantiation of the safe-angle case analysis at a concrete input: a long
segment gets the fixed `π · 0.4` ceiling. -/
theorem safe_angle_cases_witness : get_safe_angle 1 3 = Real.pi * 0.4 :=
  (safe_angle_cases 1 3 (by norm_num)).2.1 (by norm_num) (by norm_num)

/-! ### The frame computer produces unit tangents -/

theorem smooth_tangent_exists_angle (path : List Point) (w i : ℕ) :
    ∃ a, _smooth_tangent path w i = (Real.cos a, Real.sin a) :=
  ⟨_, rfl⟩

theorem tangents_getD_exists_angle (path : List Point) (w i : ℕ) :
    ∃ a, (_compute_smooth_tangents path w).getD i (1, 0) = (Real.cos a, Real.sin a) := by
  by_cases hi : i < path.length
  · have hlen : i < (_compute_smooth_tangents path w).length := by
      simpa [_compute_smooth_tangents] using hi
    rw [List.getD_eq_getElem _ _ hlen]
    simp only [_compute_smooth_tangents, List.getElem_map, List.getElem_range]
    exact smooth_tangent_exists_angle path w _
  · rw [List.getD_eq_default _ _ (by simpa [_compute_smooth_tangents] using not_lt.1 hi)]
    exact ⟨0, by norm_num⟩

/-- C9: every tangent returned by the frame computer is exactly
`(cos a, sin a)` of its smoothed angle, hence an exact unit vector, and the
roadway section vertices displace the sample along the left-hand perpendicular
`(-ty, tx)` of the tangent: the left edge minus the right edge of any section
is `(left_offset + right_offset) · (-ty, tx, 0)`. -/
theorem tangents_unit_and_left_normal (path : List Point) (w i : ℕ)
    (h : 3 ≤ path.length) :
    (((_compute_smooth_tangents path w).getD i (1, 0)).1 ^ 2 +
      ((_compute_smooth_tangents path w).getD i (1, 0)).2 ^ 2 = 1) ∧
    (∃ a, (_compute_smooth_tangents path w).getD i (1, 0) = (Real.cos a, Real.sin a)) ∧
    (∀ (p : Point) (tang : ℝ × ℝ) (lo ro th : ℝ),
      ((_track_section p tang lo ro th).getD 0 (0, 0, 0)).1 -
        ((_track_section p tang lo ro th).getD 1 (0, 0, 0)).1 = (lo + ro) * (-tang.2) ∧
      ((_track_section p tang lo ro th).getD 0 (0, 0, 0)).2.1 -
        ((_track_section p tang lo ro th).getD 1 (0, 0, 0)).2.1 = (lo + ro) * tang.1 ∧
      ((_track_section p tang lo ro th).getD 0 (0, 0, 0)).2.2 =
        ((_track_section p tang lo ro th).getD 1 (0, 0, 0)).2.2) := by
  obtain ⟨a, ha⟩ := tangents_getD_exists_angle path w i
  refine ⟨by rw [ha]; exact Real.cos_sq_add_sin_sq a, ⟨a, ha⟩, ?_⟩
  intro p tang lo ro th
  refine ⟨?_, ?_, ?_⟩ <;> simp [_track_section] <;> ring

/-- Instantiation of the unit-tangent theorem at a concrete path and index. -/
theorem tangents_unit_witness :
    ((_compute_smooth_tangents triPath 3).getD 0 (1, 0)).1 ^ 2 +
      ((_compute_smooth_tangents triPath 3).getD 0 (1, 0)).2 ^ 2 = 1 :=
  (tangents_unit_and_left_normal triPath 3 0 (by norm_num [triPath])).1

/-! ### Roadway mesh topology -/

theorem track_section_length (p : Point) (tang : ℝ × ℝ) (lo ro th : ℝ) :
    (_track_section p tang lo ro th).length = 4 := rfl

theorem span_faces_length (n i : ℕ) : (_span_faces n i).length = 4 := rfl

theorem track_verts_length (path : List Point) (w th : ℝ) (b : Bool) :
    (_track_verts path w th b).length = 4 * path.length := by
  rw [_track_verts, flatMap_length_const _ _ 4, List.length_range]
  intro a
  rfl

theorem track_faces_length (n : ℕ) : (_track_faces n).length = 4 * n := by
  rw [_track_faces, flatMap_length_const _ _ 4, List.length_range]
  intro a
  rfl

theorem drop_append_of_length {β : Type} {l₁ l₂ : List β} {k : ℕ} (h : l₁.length = k)
    (m : ℕ) : (l₁ ++ l₂).drop (k + m) = l₂.drop m := by
  subst h; rw [List.drop_append]

theorem flatMap_drop_chunk {α β : Type} (k : ℕ) (f : α → List β)
    (hk : ∀ a, (f a).length = k) :
    ∀ (i : ℕ) (l : List α), i ≤ l.length →
      (l.flatMap f).drop (k * i) = (l.drop i).flatMap f := by
  intro i
  induction i with
  | zero => intro l _; simp
  | succ i ih =>
    intro l hl
    match l, hl with
    | a :: t, hl =>
      rw [List.flatMap_cons, show k * (i + 1) = k + k * i by ring,
        drop_append_of_length (hk a), ih t (by simpa using hl)]
      rfl

theorem track_verts_section (path : List Point) (w th : ℝ) (b : Bool) (i : ℕ)
    (hi : i < path.length) :
    ((_track_verts path w th b).drop (4 * i)).take 4 =
      _track_section (pget path i)
        ((_compute_smooth_tangents path (max 3 (path.length / 20))).getD i (1, 0))
        (_track_offsets path (w / 2) b i).1 (_track_offsets path (w / 2) b i).2 th := by
  rw [_track_verts, flatMap_drop_chunk 4]
  · rw [List.drop_eq_getElem_cons (by simpa using hi), List.flatMap_cons,
      List.take_left' (by exact rfl)]
    simp
  · intro a
    rfl
  · simpa using hi.le

theorem span_faces_mem (n i : ℕ) (hi : i < n) {q : ℕ × ℕ × ℕ × ℕ}
    (hq : q ∈ _span_faces n i) : q ∈ _track_faces n :=
  List.mem_flatMap.2 ⟨i, List.mem_range.2 hi, hq⟩

/-- C6: for a conditioned path of `n ≥ 3` samples the roadway builder
succeeds and creates exactly 4 vertices per sample (section `i` occupying
vertex indices `4i .. 4i+3`) and exactly `4 n` quad faces; for every `i`,
including the wrap `n-1 → 0`, the four span quads (top, bottom, left side,
right side) stitch section `i` to section `(i+1) % n`. -/
theorem track_mesh_topology (path : List Point) (w th : ℝ) (h : 3 ≤ path.length) :
    _create_track_along_path path w th true = .ok (_track_mesh path w th true) ∧
    (_track_mesh path w th true).verts.length = 4 * path.length ∧
    (_track_mesh path w th true).faces.length = 4 * path.length ∧
    (∀ i, i < path.length →
      ((_track_mesh path w th true).verts.drop (4 * i)).take 4 =
        _track_section (pget path i)
          ((_compute_smooth_tangents path (max 3 (path.length / 20))).getD i (1, 0))
          (_track_offsets path (w / 2) true i).1 (_track_offsets path (w / 2) true i).2
          th) ∧
    (∀ i, i < path.length →
      (4*i, 4*((i+1) % path.length), 4*((i+1) % path.length) + 1, 4*i + 1)
          ∈ (_track_mesh path w th true).faces ∧
      (4*i + 3, 4*i + 2, 4*((i+1) % path.length) + 2, 4*((i+1) % path.length) + 3)
          ∈ (_track_mesh path w th true).faces ∧
      (4*i + 3, 4*((i+1) % path.length) + 3, 4*((i+1) % path.length), 4*i)
          ∈ (_track_mesh path w th true).faces ∧
      (4*i + 1, 4*((i+1) % path.length) + 1, 4*((i+1) % path.length) + 2, 4*i + 2)
          ∈ (_track_mesh path w th true).faces) := by
  refine ⟨?_, track_verts_length path w th true, track_faces_length path.length,
    fun i hi => track_verts_section path w th true i hi, fun i hi => ?_⟩
  · rw [_create_track_along_path, if_neg (not_lt.2 h)]
  · exact ⟨span_faces_mem _ i hi (by simp [_span_faces]),
      span_faces_mem _ i hi (by simp [_span_faces]),
      span_faces_mem _ i hi (by simp [_span_faces]),
      span_faces_mem _ i hi (by simp [_span_faces])⟩

/-- Instantiation of the mesh topology at a concrete 3-sample path: the
builder succeeds and emits 12 vertices and 12 quad faces. -/
theorem track_mesh_topology_witness :
    _create_track_along_path triPath 6 0.3 true = .ok (_track_mesh triPath 6 0.3 true) ∧
    (_track_mesh triPath 6 0.3 true).verts.length = 12 ∧
    (_track_mesh triPath 6 0.3 true).faces.length = 12 := by
  obtain ⟨h1, h2, h3, -, -⟩ := track_mesh_topology triPath 6 0.3 (by norm_num [triPath])
  exact ⟨h1, by simpa [triPath] using h2, by simpa [triPath] using h3⟩

/-! ### Corridor adaptation reads only x and y -/

theorem length_eq_of_projXY {p q : List Point} (h : p.map projXY = q.map projXY) :
    p.length = q.length := by
  have := congrArg List.length h
  simpa using this

theorem projXY_pget {p q : List Point} (h : p.map projXY = q.map projXY) (k : ℕ) :
    (pget p k).1 = (pget q k).1 ∧ (pget p k).2.1 = (pget q k).2.1 := by
  have e1 : (p.map projXY).getD k (projXY (0, 0, 0)) = projXY (p.getD k (0, 0, 0)) :=
    List.getD_map ..
  have e2 : (q.map projXY).getD k (projXY (0, 0, 0)) = projXY (q.getD k (0, 0, 0)) :=
    List.getD_map ..
  have e3 : projXY (p.getD k (0, 0, 0)) = projXY (q.getD k (0, 0, 0)) := by
    rw [← e1, ← e2, h]
  constructor
  · have := congrArg Prod.fst e3
    simpa [projXY, pget] using this
  · have := congrArg Prod.snd e3
    simpa [projXY, pget] using this

theorem curvature_radius_projXY {p q : List Point} (h : p.map projXY = q.map projXY)
    (i : ℕ) : _compute_curvature_radius p i = _compute_curvature_radius q i := by
  have hx : ∀ k, (pget p k).1 = (pget q k).1 := fun k => (projXY_pget h k).1
  have hy : ∀ k, (pget p k).2.1 = (pget q k).2.1 := fun k => (projXY_pget h k).2
  simp only [_compute_curvature_radius, length_eq_of_projXY h, hx, hy]

theorem curvature_radii_projXY {p q : List Point} (h : p.map projXY = q.map projXY) :
    _compute_curvature_radii p 2 = _compute_curvature_radii q 2 := by
  have hfun : _compute_curvature_radius p = _compute_curvature_radius q :=
    funext (curvature_radius_projXY h)
  simp only [_compute_curvature_radii, length_eq_of_projXY h, hfun]

theorem turn_directions_projXY {p q : List Point} (h : p.map projXY = q.map projXY)
    (tp tq : List (ℝ × ℝ)) :
    _compute_turn_directions p tp = _compute_turn_directions q tq := by
  have hx : ∀ k, (pget p k).1 = (pget q k).1 := fun k => (projXY_pget h k).1
  have hy : ∀ k, (pget p k).2.1 = (pget q k).2.1 := fun k => (projXY_pget h k).2
  simp only [_compute_turn_directions, length_eq_of_projXY h, hx, hy]

theorem track_offsets_projXY {p q : List Point} (h : p.map projXY = q.map projXY)
    (half_width : ℝ) (b : Bool) (i : ℕ) :
    _track_offsets p half_width b i = _track_offsets q half_width b i := by
  rw [_track_offsets, _track_offsets, curvature_radii_projXY h,
    turn_directions_projXY h (_compute_smooth_tangents p (max 3 (p.length / 20)))
      (_compute_smooth_tangents q (max 3 (q.length / 20)))]

/-- C10: elevation does not influence corridor-width adaptation: for two paths
whose samples agree in x and y but differ arbitrarily in z, the smoothed
curvature radii, the turn directions (whatever tangent lists are passed), and
the adaptive per-sample offsets of the roadway builder coincide, because these
computations read only the x and y coordinates. -/
theorem elevation_noninterference (p q : List Point)
    (h : p.map projXY = q.map projXY) :
    _compute_curvature_radii p 2 = _compute_curvature_radii q 2 ∧
    (∀ tp tq, _compute_turn_directions p tp = _compute_turn_directions q tq) ∧
    (∀ half_width b i,
      _track_offsets p half_width b i = _track_offsets q half_width b i) :=
  ⟨curvature_radii_projXY h, turn_directions_projXY h,
   fun half_width b i => track_offsets_projXY h half_width b i⟩

/-- Instantiation of elevation non-interference at two concrete paths that
agree in x and y and differ in every z. -/
theorem elevation_noninterference_witness :
    _compute_curvature_radii zPathA 2 = _compute_curvature_radii zPathB 2 :=
  (elevation_noninterference zPathA zPathB
    (by norm_num [zPathA, zPathB, projXY])).1

/-! ### Degeneracy fallbacks -/

theorem pre_tangent_of_sum (path : List Point) (w i : ℕ) (sx sy sw : ℝ)
    (hs : _raw_tangent_sum path w i = (sx, sy, sw)) (hw : 0 < sw) :
    _pre_tangent path w i = (sx / sw, sy / sw) := by
  simp only [_pre_tangent, hs]
  rw [if_pos hw, if_pos hw]

theorem raw_tangent_of_pre (path : List Point) (w i : ℕ) (x y L : ℝ)
    (hp : _pre_tangent path w i = (x, y)) (hL : Real.sqrt (x * x + y * y) = L)
    (hpos : 0.001 < L) : _raw_tangent path w i = (x / L, y / L) := by
  simp only [_raw_tangent, hp]
  rw [hL, if_pos hpos]

theorem raw_tangent_fallback (path : List Point) (w i : ℕ)
    (h : ¬ (0.001 < Real.sqrt ((_pre_tangent path w i).1 * (_pre_tangent path w i).1 +
        (_pre_tangent path w i).2 * (_pre_tangent path w i).2))) :
    _raw_tangent path w i = (1, 0) := by
  simp only [_raw_tangent]
  rw [if_neg h]

set_option maxHeartbeats 1000000 in
theorem heron_area_sq_nonpos (x0 y0 x1 y1 x2 y2 : ℝ)
    (h : (x1 - x0) * (y2 - y1) - (y1 - y0) * (x2 - x1) = 0) :
    ((Real.sqrt ((x1 - x2) ^ 2 + (y1 - y2) ^ 2) +
        Real.sqrt ((x0 - x2) ^ 2 + (y0 - y2) ^ 2) +
        Real.sqrt ((x0 - x1) ^ 2 + (y0 - y1) ^ 2)) / 2) *
      (((Real.sqrt ((x1 - x2) ^ 2 + (y1 - y2) ^ 2) +
          Real.sqrt ((x0 - x2) ^ 2 + (y0 - y2) ^ 2) +
          Real.sqrt ((x0 - x1) ^ 2 + (y0 - y1) ^ 2)) / 2) -
        Real.sqrt ((x1 - x2) ^ 2 + (y1 - y2) ^ 2)) *
      (((Real.sqrt ((x1 - x2) ^ 2 + (y1 - y2) ^ 2) +
          Real.sqrt ((x0 - x2) ^ 2 + (y0 - y2) ^ 2) +
          Real.sqrt ((x0 - x1) ^ 2 + (y0 - y1) ^ 2)) / 2) -
        Real.sqrt ((x0 - x2) ^ 2 + (y0 - y2) ^ 2)) *
      (((Real.sqrt ((x1 - x2) ^ 2 + (y1 - y2) ^ 2) +
          Real.sqrt ((x0 - x2) ^ 2 + (y0 - y2) ^ 2) +
          Real.sqrt ((x0 - x1) ^ 2 + (y0 - y1) ^ 2)) / 2) -
        Real.sqrt ((x0 - x1) ^ 2 + (y0 - y1) ^ 2)) ≤ 0 := by
  set a := Real.sqrt ((x1 - x2) ^ 2 + (y1 - y2) ^ 2) with hadef
  set b := Real.sqrt ((x0 - x2) ^ 2 + (y0 - y2) ^ 2) with hbdef
  set c := Real.sqrt ((x0 - x1) ^ 2 + (y0 - y1) ^ 2) with hcdef
  have ha : a ^ 2 = (x1 - x2) ^ 2 + (y1 - y2) ^ 2 := Real.sq_sqrt (by positivity)
  have hb : b ^ 2 = (x0 - x2) ^ 2 + (y0 - y2) ^ 2 := Real.sq_sqrt (by positivity)
  have hc : c ^ 2 = (x0 - x1) ^ 2 + (y0 - y1) ^ 2 := Real.sq_sqrt (by positivity)
  have h16 : 16 * (((a + b + c) / 2) * (((a + b + c) / 2) - a) *
      (((a + b + c) / 2) - b) * (((a + b + c) / 2) - c)) =
      2 * a ^ 2 * b ^ 2 + 2 * b ^ 2 * c ^ 2 + 2 * c ^ 2 * a ^ 2 -
        a ^ 2 * a ^ 2 - b ^ 2 * b ^ 2 - c ^ 2 * c ^ 2 := by ring
  rw [ha, hb, hc] at h16
  have h4 : 2 * ((x1 - x2) ^ 2 + (y1 - y2) ^ 2) * ((x0 - x2) ^ 2 + (y0 - y2) ^ 2) +
      2 * ((x0 - x2) ^ 2 + (y0 - y2) ^ 2) * ((x0 - x1) ^ 2 + (y0 - y1) ^ 2) +
      2 * ((x0 - x1) ^ 2 + (y0 - y1) ^ 2) * ((x1 - x2) ^ 2 + (y1 - y2) ^ 2) -
      ((x1 - x2) ^ 2 + (y1 - y2) ^ 2) * ((x1 - x2) ^ 2 + (y1 - y2) ^ 2) -
      ((x0 - x2) ^ 2 + (y0 - y2) ^ 2) * ((x0 - x2) ^ 2 + (y0 - y2) ^ 2) -
      ((x0 - x1) ^ 2 + (y0 - y1) ^ 2) * ((x0 - x1) ^ 2 + (y0 - y1) ^ 2) =
      4 * ((x1 - x0) * (y2 - y1) - (y1 - y0) * (x2 - x1)) ^ 2 := by ring
  rw [h] at h4
  rw [h4] at h16
  nlinarith [h16]

/-- A cross product of zero between the incoming and outgoing chord at sample
`i` (collinear or duplicate neighbours) forces the circumradius to `⊤`. -/
theorem curvature_radius_collinear (path : List Point) (i : ℕ)
    (h : ((pget path i).1 - (pget path (cyc path.length ((i : ℤ) - 1))).1) *
        ((pget path (cyc path.length ((i : ℤ) + 1))).2.1 - (pget path i).2.1) -
        ((pget path i).2.1 - (pget path (cyc path.length ((i : ℤ) - 1))).2.1) *
        ((pget path (cyc path.length ((i : ℤ) + 1))).1 - (pget path i).1) = 0) :
    _compute_curvature_radius path i = ⊤ := by
  by_cases h3 : path.length < 3
  · rw [_compute_curvature_radius, if_pos h3]
  · simp only [_compute_curvature_radius]
    rw [if_neg h3, if_pos (heron_area_sq_nonpos
      (pget path (cyc path.length ((i : ℤ) - 1))).1
      (pget path (cyc path.length ((i : ℤ) - 1))).2.1
      (pget path i).1 (pget path i).2.1
      (pget path (cyc path.length ((i : ℤ) + 1))).1
      (pget path (cyc path.length ((i : ℤ) + 1))).2.1 h)]

theorem turn_angle_info_degenerate (points : List Point) (i : ℕ)
    (h : Real.sqrt (((pget points i).1 - (pget points (cyc points.length ((i : ℤ) - 1))).1) *
          ((pget points i).1 - (pget points (cyc points.length ((i : ℤ) - 1))).1) +
          ((pget points i).2.1 - (pget points (cyc points.length ((i : ℤ) - 1))).2.1) *
          ((pget points i).2.1 - (pget points (cyc points.length ((i : ℤ) - 1))).2.1)) < 0.001 ∨
        Real.sqrt (((pget points (cyc points.length ((i : ℤ) + 1))).1 - (pget points i).1) *
          ((pget points (cyc points.length ((i : ℤ) + 1))).1 - (pget points i).1) +
          ((pget points (cyc points.length ((i : ℤ) + 1))).2.1 - (pget points i).2.1) *
          ((pget points (cyc points.length ((i : ℤ) + 1))).2.1 - (pget points i).2.1)) < 0.001) :
    _turn_angle_info points i = (0, 0, 0) := by
  simp only [_turn_angle_info]
  rw [if_pos h]

/-- C8 counterexample: on `palPath` the window sums of the first tangent pass
vanish at sample 0, and the source's fallback is the fixed direction `(1, 0)`:
it is not either neighbouring direction (`(0, -1)` at sample 6, `(0, 1)` at
sample 1), refuting "a zero-length direction is replaced by reusing the
previous (neighboring) direction". -/
theorem tangent_fallback_counterexample :
    _raw_tangent palPath 3 0 = (1, 0) ∧
    _raw_tangent palPath 3 6 = (0, -1) ∧
    _raw_tangent palPath 3 1 = (0, 1) ∧
    _raw_tangent palPath 3 0 ≠ _raw_tangent palPath 3 6 ∧
    _raw_tangent palPath 3 0 ≠ _raw_tangent palPath 3 1 := by
  have hs0 : _raw_tangent_sum palPath 3 0 = (0, 0, 11 / 6) := by
    simp only [_raw_tangent_sum, show palPath.length = 7 from rfl]
    rw [show List.range 3 = [0, 1, 2] from rfl]
    simp only [List.foldl_cons, List.foldl_nil]
    norm_num
    simp only [show cyc 7 (-1) = 6 from rfl, show cyc 7 1 = 1 from rfl,
      show cyc 7 (-2) = 5 from rfl, show cyc 7 2 = 2 from rfl,
      show cyc 7 (-3) = 4 from rfl, show cyc 7 3 = 3 from rfl,
      show pget palPath 1 = (0, 1, 0) from rfl, show pget palPath 2 = (0, 2, 0) from rfl,
      show pget palPath 3 = (0, 3, 0) from rfl, show pget palPath 4 = (0, 3, 0) from rfl,
      show pget palPath 5 = (0, 2, 0) from rfl, show pget palPath 6 = (0, 1, 0) from rfl]
    norm_num
  have hs6 : _raw_tangent_sum palPath 3 6 = (0, -10 / 3, 11 / 6) := by
    simp only [_raw_tangent_sum, show palPath.length = 7 from rfl]
    rw [show List.range 3 = [0, 1, 2] from rfl]
    simp only [List.foldl_cons, List.foldl_nil]
    norm_num
    simp only [show cyc 7 5 = 5 from rfl, show cyc 7 7 = 0 from rfl,
      show cyc 7 4 = 4 from rfl, show cyc 7 8 = 1 from rfl,
      show cyc 7 3 = 3 from rfl, show cyc 7 9 = 2 from rfl,
      show pget palPath 0 = (0, 0, 0) from rfl, show pget palPath 1 = (0, 1, 0) from rfl,
      show pget palPath 2 = (0, 2, 0) from rfl, show pget palPath 3 = (0, 3, 0) from rfl,
      show pget palPath 4 = (0, 3, 0) from rfl, show pget palPath 5 = (0, 2, 0) from rfl]
    norm_num
  have hs1 : _raw_tangent_sum palPath 3 1 = (0, 10 / 3, 11 / 6) := by
    simp only [_raw_tangent_sum, show palPath.length = 7 from rfl]
    rw [show List.range 3 = [0, 1, 2] from rfl]
    simp only [List.foldl_cons, List.foldl_nil]
    norm_num
    simp only [show cyc 7 0 = 0 from rfl, show cyc 7 2 = 2 from rfl,
      show cyc 7 (-1) = 6 from rfl, show cyc 7 3 = 3 from rfl,
      show cyc 7 (-2) = 5 from rfl, show cyc 7 4 = 4 from rfl,
      show pget palPath 0 = (0, 0, 0) from rfl, show pget palPath 2 = (0, 2, 0) from rfl,
      show pget palPath 3 = (0, 3, 0) from rfl, show pget palPath 4 = (0, 3, 0) from rfl,
      show pget palPath 5 = (0, 2, 0) from rfl, show pget palPath 6 = (0, 1, 0) from rfl]
    norm_num
  have hp0 : _pre_tangent palPath 3 0 = (0, 0) := by
    rw [pre_tangent_of_sum palPath 3 0 0 0 (11 / 6) hs0 (by norm_num)]
    norm_num
  have hp6 : _pre_tangent palPath 3 6 = (0, -20 / 11) := by
    rw [pre_tangent_of_sum palPath 3 6 0 (-10 / 3) (11 / 6) hs6 (by norm_num)]
    norm_num
  have hp1 : _pre_tangent palPath 3 1 = (0, 20 / 11) := by
    rw [pre_tangent_of_sum palPath 3 1 0 (10 / 3) (11 / 6) hs1 (by norm_num)]
    norm_num
  have hr0 : _raw_tangent palPath 3 0 = (1, 0) := by
    refine raw_tangent_fallback palPath 3 0 ?_
    rw [hp0]
    norm_num
  have hr6 : _raw_tangent palPath 3 6 = (0, -1) := by
    rw [raw_tangent_of_pre palPath 3 6 0 (-20 / 11) (20 / 11) hp6 ?_ (by norm_num)]
    · norm_num
    · rw [show (0 : ℝ) * 0 + -20 / 11 * (-20 / 11) = (20 / 11) ^ 2 by norm_num,
        Real.sqrt_sq (by norm_num)]
  have hr1 : _raw_tangent palPath 3 1 = (0, 1) := by
    rw [raw_tangent_of_pre palPath 3 1 0 (20 / 11) (20 / 11) hp1 ?_ (by norm_num)]
    · norm_num
    · rw [show (0 : ℝ) * 0 + 20 / 11 * (20 / 11) = (20 / 11) ^ 2 by norm_num,
        Real.sqrt_sq (by norm_num)]
  refine ⟨hr0, hr6, hr1, ?_, ?_⟩
  · rw [hr0, hr6]
    intro hcon
    have := congrArg Prod.fst hcon
    norm_num at this
  · rw [hr0, hr1]
    intro hcon
    have := congrArg Prod.fst hcon
    norm_num at this

/-- C8 amended: degeneracies are handled by total local fallbacks: a window
direction of near-zero length falls back to the fixed unit direction `(1, 0)`
(not to a neighbouring direction); a zero cross product (collinear or
duplicate neighbours) yields circumradius `⊤`, and a `⊤` radius imposes no
offset constraint (both sides keep the full half width); a near-zero chord
makes the curvature limiter treat the sample as straight (`(0, 0, 0)`). -/
theorem degeneracy_fallbacks :
    (∀ (path : List Point) (w i : ℕ),
      ¬ (0.001 < Real.sqrt ((_pre_tangent path w i).1 * (_pre_tangent path w i).1 +
          (_pre_tangent path w i).2 * (_pre_tangent path w i).2)) →
      _raw_tangent path w i = (1, 0)) ∧
    (∀ (path : List Point) (i : ℕ),
      ((pget path i).1 - (pget path (cyc path.length ((i : ℤ) - 1))).1) *
          ((pget path (cyc path.length ((i : ℤ) + 1))).2.1 - (pget path i).2.1) -
          ((pget path i).2.1 - (pget path (cyc path.length ((i : ℤ) - 1))).2.1) *
          ((pget path (cyc path.length ((i : ℤ) + 1))).1 - (pget path i).1) = 0 →
      _compute_curvature_radius path i = ⊤) ∧
    (∀ half_width turn_dir : ℝ,
      _get_adaptive_offsets ⊤ half_width turn_dir = (half_width, half_width)) ∧
    (∀ (points : List Point) (i : ℕ),
      Real.sqrt (((pget points i).1 - (pget points (cyc points.length ((i : ℤ) - 1))).1) *
          ((pget points i).1 - (pget points (cyc points.length ((i : ℤ) - 1))).1) +
          ((pget points i).2.1 - (pget points (cyc points.length ((i : ℤ) - 1))).2.1) *
          ((pget points i).2.1 - (pget points (cyc points.length ((i : ℤ) - 1))).2.1)) < 0.001 ∨
        Real.sqrt (((pget points (cyc points.length ((i : ℤ) + 1))).1 - (pget points i).1) *
          ((pget points (cyc points.length ((i : ℤ) + 1))).1 - (pget points i).1) +
          ((pget points (cyc points.length ((i : ℤ) + 1))).2.1 - (pget points i).2.1) *
          ((pget points (cyc points.length ((i : ℤ) + 1))).2.1 - (pget points i).2.1)) < 0.001 →
      _turn_angle_info points i = (0, 0, 0)) :=
  ⟨raw_tangent_fallback,
   curvature_radius_collinear,
   fun half_width turn_dir => offsets_big ⊤ half_width turn_dir (WithTop.coe_lt_top _),
   turn_angle_info_degenerate⟩

/-- Instantiation of the degeneracy fallbacks at concrete inputs: the
collinear sample 1 of `palPath` gets an infinite radius, which imposes no
offset constraint. -/
theorem degeneracy_fallbacks_witness :
    _compute_curvature_radius palPath 1 = ⊤ ∧
    _get_adaptive_offsets ⊤ 3 1 = (3, 3) :=
  ⟨degeneracy_fallbacks.2.1 palPath 1 (by
      simp only [show palPath.length = 7 from rfl, show pget palPath 1 = (0, 1, 0) from rfl]
      norm_num
      simp only [show cyc 7 0 = 0 from rfl, show cyc 7 2 = 2 from rfl,
        show pget palPath 0 = (0, 0, 0) from rfl, show pget palPath 2 = (0, 2, 0) from rfl]
      norm_num),
   degeneracy_fallbacks.2.2.1 3 1⟩

/-! ### The curvature-limiting relaxation loop -/

theorem limit_step_fst_length (hw : ℝ) (st : List Point × ℝ) (i : ℕ) :
    (_limit_step hw st i).1.length = st.1.length := by
  simp only [_limit_step]
  split_ifs <;> simp

theorem limit_fold_fst_length (hw : ℝ) (l : List ℕ) :
    ∀ (st : List Point × ℝ), ((l.foldl (_limit_step hw) st).1).length = st.1.length := by
  induction l with
  | nil => intro st; rfl
  | cons a t ih =>
    intro st
    rw [List.foldl_cons, ih, limit_step_fst_length]

theorem limit_sweep_fst_length (hw : ℝ) (points : List Point) :
    (_limit_sweep hw points).1.length = points.length :=
  limit_fold_fst_length hw _ _

theorem sweepIter_length (hw : ℝ) : ∀ (k : ℕ) (points : List Point),
    (sweepIter hw k points).length = points.length := by
  intro k
  induction k with
  | zero => intro p; rfl
  | succ k ih =>
    intro p
    rw [sweepIter, ih, limit_sweep_fst_length]

theorem limit_loop_length (hw : ℝ) : ∀ (f : ℕ) (points : List Point),
    (_limit_loop hw f points).length = points.length := by
  intro f
  induction f with
  | zero => intro p; rfl
  | succ f ih =>
    intro p
    simp only [_limit_loop]
    split_ifs
    · exact limit_sweep_fst_length hw p
    · rw [ih, limit_sweep_fst_length]

theorem limit_path_curvature_length (path : List Point) (w : ℝ) (k : ℕ) :
    (_limit_path_curvature path w k).length = path.length := by
  rw [_limit_path_curvature]
  split_ifs
  · rfl
  · exact limit_loop_length (w / 2) k path

theorem limit_loop_spec (hw : ℝ) :
    ∀ (f : ℕ), 1 ≤ f → ∀ (pts : List Point), ∃ k, 1 ≤ k ∧ k ≤ f ∧
      _limit_loop hw f pts = sweepIter hw k pts ∧
      (∀ j, j + 1 < k → ¬ ((_limit_sweep hw (sweepIter hw j pts)).2 < 0.01)) ∧
      (k < f → (_limit_sweep hw (sweepIter hw (k - 1) pts)).2 < 0.01) := by
  intro f
  induction f with
  | zero => intro h; exact absurd h (by norm_num)
  | succ f ih =>
    intro _ pts
    by_cases hm : (_limit_sweep hw pts).2 < 0.01
    · refine ⟨1, le_refl 1, by omega, ?_, ?_, ?_⟩
      · simp only [_limit_loop]
        rw [if_pos hm]
        rfl
      · intro j hj
        omega
      · intro _
        exact hm
    · rcases Nat.eq_zero_or_pos f with hf | hf
      · subst hf
        refine ⟨1, le_refl 1, le_refl 1, ?_, ?_, ?_⟩
        · simp only [_limit_loop]
          rw [if_neg hm]
          rfl
        · intro j hj
          omega
        · intro hcon
          omega
      · obtain ⟨k', h1, h2, h3, h4, h5⟩ := ih hf (_limit_sweep hw pts).1
        refine ⟨k' + 1, by omega, by omega, ?_, ?_, ?_⟩
        · simp only [_limit_loop]
          rw [if_neg hm]
          exact h3
        · intro j hj
          cases j with
          | zero => exact hm
          | succ j' => exact h4 j' (by omega)
        · intro h6
          have h7 := h5 (by omega)
          have hk' : k' - 1 + 1 = k' := by omega
          rw [show k' + 1 - 1 = k' from by omega, ← hk']
          exact h7

theorem limit_step_snd_le (hw : ℝ) (st : List Point × ℝ) (i : ℕ) :
    st.2 ≤ (_limit_step hw st i).2 := by
  simp only [_limit_step]
  split_ifs
  · exact le_max_left _ _
  · exact le_refl _

theorem limit_fold_snd_le (hw : ℝ) (l : List ℕ) :
    ∀ (st : List Point × ℝ), st.2 ≤ (l.foldl (_limit_step hw) st).2 := by
  induction l with
  | nil => intro st; exact le_refl _
  | cons a t ih =>
    intro st
    rw [List.foldl_cons]
    exact le_trans (limit_step_snd_le hw st a) (ih _)

theorem sweep_eq_before_then (hw : ℝ) (points : List Point) (i : ℕ)
    (hi : i < points.length) :
    _limit_sweep hw points =
      ((List.range points.length).drop (i + 1)).foldl (_limit_step hw)
        (_limit_step hw (_sweep_before hw points i) i) := by
  rw [_limit_sweep, _sweep_before]
  conv_lhs => rw [← List.take_append_drop i (List.range points.length)]
  rw [List.foldl_append, List.drop_eq_getElem_cons (by simpa using hi),
    List.getElem_range, List.foldl_cons]

theorem sweep_bounds_excess (hw : ℝ) (points : List Point) (i : ℕ)
    (hi : i < points.length) {t : ℝ}
    (hs : (_limit_sweep hw points).2 < t) (ht : 0 < t) :
    (_turn_angle_info (_sweep_before hw points i).1 i).1 -
      get_safe_angle hw (_turn_angle_info (_sweep_before hw points i).1 i).2.1 < t := by
  by_cases hgt : get_safe_angle hw (_turn_angle_info (_sweep_before hw points i).1 i).2.1 <
      (_turn_angle_info (_sweep_before hw points i).1 i).1
  · have hstep : (_turn_angle_info (_sweep_before hw points i).1 i).1 -
        get_safe_angle hw (_turn_angle_info (_sweep_before hw points i).1 i).2.1 ≤
        (_limit_step hw (_sweep_before hw points i) i).2 := by
      simp only [_limit_step]
      rw [if_pos hgt]
      exact le_max_right _ _
    have hrest : (_limit_step hw (_sweep_before hw points i) i).2 ≤
        (_limit_sweep hw points).2 := by
      rw [sweep_eq_before_then hw points i hi]
      exact limit_fold_snd_le hw _ _
    linarith
  · push_neg at hgt
    linarith

theorem limit_step_moves (hw : ℝ) (points : List Point) (m : ℝ) (i : ℕ)
    (hgt : get_safe_angle hw (_turn_angle_info points i).2.1 <
      (_turn_angle_info points i).1) :
    _limit_step hw (points, m) i =
      (points.set i
        ((pget points i).1 +
          (((pget points (cyc points.length ((i : ℤ) - 1))).1 +
            (pget points (cyc points.length ((i : ℤ) + 1))).1) / 2 -
            (pget points i).1) *
          min 0.3 (((_turn_angle_info points i).1 -
            get_safe_angle hw (_turn_angle_info points i).2.1) / Real.pi),
         (pget points i).2.1 +
          (((pget points (cyc points.length ((i : ℤ) - 1))).2.1 +
            (pget points (cyc points.length ((i : ℤ) + 1))).2.1) / 2 -
            (pget points i).2.1) *
          min 0.3 (((_turn_angle_info points i).1 -
            get_safe_angle hw (_turn_angle_info points i).2.1) / Real.pi),
         (pget points i).2.2 +
          (((pget points (cyc points.length ((i : ℤ) - 1))).2.2 +
            (pget points (cyc points.length ((i : ℤ) + 1))).2.2) / 2 -
            (pget points i).2.2) *
          min 0.3 (((_turn_angle_info points i).1 -
            get_safe_angle hw (_turn_angle_info points i).2.1) / Real.pi)),
       max m ((_turn_angle_info points i).1 -
         get_safe_angle hw (_turn_angle_info points i).2.1)) := by
  simp only [_limit_step]
  rw [if_pos hgt]

theorem limit_step_keeps (hw : ℝ) (points : List Point) (m : ℝ) (i : ℕ)
    (hle : ¬ (get_safe_angle hw (_turn_angle_info points i).2.1 <
      (_turn_angle_info points i).1)) :
    _limit_step hw (points, m) i = (points, m) := by
  simp only [_limit_step]
  rw [if_neg hle]

/-- C1: on a closed path of at least 4 samples with positive track width the
relaxation performs at most 50 sweeps; within a sweep, a sample whose turn
angle exceeds its safe angle moves toward the midpoint of its circular
neighbours by the fraction `min 0.3 (excess / π)` while a safe sample is left
unchanged; the loop continues exactly while the worst recorded excess is at
least `0.01` rad and stops before the cap exactly when it has fallen below
`0.01`, in which case every sample's turn angle, as measured when the final
sweep visited it, exceeds its safe angle by less than that tolerance. -/
theorem limit_path_curvature_spec (path : List Point) (w : ℝ)
    (h4 : 4 ≤ path.length) (hw : 0 < w) :
    (∀ (points : List Point) (m : ℝ) (i : ℕ),
      (get_safe_angle (w / 2) (_turn_angle_info points i).2.1 <
          (_turn_angle_info points i).1 →
        _limit_step (w / 2) (points, m) i =
          (points.set i
            ((pget points i).1 +
              (((pget points (cyc points.length ((i : ℤ) - 1))).1 +
                (pget points (cyc points.length ((i : ℤ) + 1))).1) / 2 -
                (pget points i).1) *
              min 0.3 (((_turn_angle_info points i).1 -
                get_safe_angle (w / 2) (_turn_angle_info points i).2.1) / Real.pi),
             (pget points i).2.1 +
              (((pget points (cyc points.length ((i : ℤ) - 1))).2.1 +
                (pget points (cyc points.length ((i : ℤ) + 1))).2.1) / 2 -
                (pget points i).2.1) *
              min 0.3 (((_turn_angle_info points i).1 -
                get_safe_angle (w / 2) (_turn_angle_info points i).2.1) / Real.pi),
             (pget points i).2.2 +
              (((pget points (cyc points.length ((i : ℤ) - 1))).2.2 +
                (pget points (cyc points.length ((i : ℤ) + 1))).2.2) / 2 -
                (pget points i).2.2) *
              min 0.3 (((_turn_angle_info points i).1 -
                get_safe_angle (w / 2) (_turn_angle_info points i).2.1) / Real.pi)),
           max m ((_turn_angle_info points i).1 -
             get_safe_angle (w / 2) (_turn_angle_info points i).2.1))) ∧
      (¬ (get_safe_angle (w / 2) (_turn_angle_info points i).2.1 <
          (_turn_angle_info points i).1) →
        _limit_step (w / 2) (points, m) i = (points, m))) ∧
    (∃ k, 1 ≤ k ∧ k ≤ 50 ∧
      _limit_path_curvature path w 50 = sweepIter (w / 2) k path ∧
      (∀ j, j + 1 < k → ¬ (sweepMax (w / 2) (sweepIter (w / 2) j path) < 0.01)) ∧
      (k < 50 →
        sweepMax (w / 2) (sweepIter (w / 2) (k - 1) path) < 0.01 ∧
        ∀ i, i < path.length →
          (_turn_angle_info
              (_sweep_before (w / 2) (sweepIter (w / 2) (k - 1) path) i).1 i).1 -
            get_safe_angle (w / 2)
              (_turn_angle_info
                (_sweep_before (w / 2) (sweepIter (w / 2) (k - 1) path) i).1 i).2.1
            < 0.01)) := by
  refine ⟨fun points m i => ⟨limit_step_moves (w / 2) points m i,
    limit_step_keeps (w / 2) points m i⟩, ?_⟩
  obtain ⟨k, h1, h2, h3, h5, h6⟩ := limit_loop_spec (w / 2) 50 (by norm_num) path
  refine ⟨k, h1, h2, ?_, h5, fun hk => ?_⟩
  · rw [_limit_path_curvature, if_neg (not_lt.2 h4)]
    exact h3
  · refine ⟨h6 hk, fun i hi => ?_⟩
    exact sweep_bounds_excess (w / 2) (sweepIter (w / 2) (k - 1) path) i
      (by rw [sweepIter_length]; exact hi) (h6 hk) (by norm_num)

/-- Instantiation of the relaxation loop characterisation at a concrete
4-sample square path of unit track width. -/
theorem limit_path_curvature_spec_witness :
    ∃ k, 1 ≤ k ∧ k ≤ 50 ∧
      _limit_path_curvature sqPath 1 50 = sweepIter ((1 : ℝ) / 2) k sqPath := by
  obtain ⟨-, k, h1, h2, h3, -⟩ :=
    limit_path_curvature_spec sqPath 1 (by norm_num [sqPath]) (by norm_num)
  exact ⟨k, h1, h2, h3⟩

/-! ### Uniform resampling -/

theorem segment_lengths_nonneg (path : List Point) :
    ∀ x ∈ _segment_lengths path, 0 ≤ x := by
  intro x hx
  simp only [_segment_lengths, List.mem_map] at hx
  obtain ⟨i, -, rfl⟩ := hx
  exact Real.sqrt_nonneg _

theorem total_length_nonneg (path : List Point) : 0 ≤ _total_length path :=
  List.sum_nonneg (segment_lengths_nonneg path)

theorem advance_cur_lt (segLens : List ℝ) (n : ℕ) (hn : 0 < n) :
    ∀ (fuel : ℕ) (st : ℕ × ℝ), st.1 < n → (_advance segLens n fuel st).1 < n := by
  intro fuel
  induction fuel with
  | zero => intro st h; exact h
  | succ fuel ih =>
    intro st h
    simp only [_advance]
    split_ifs with hg
    · exact ih _ (Nat.mod_lt _ hn)
    · exact h

theorem advance_prog_nonneg (segLens : List ℝ) (n : ℕ) :
    ∀ (fuel : ℕ) (st : ℕ × ℝ), 0 ≤ st.2 → 0 ≤ (_advance segLens n fuel st).2 := by
  intro fuel
  induction fuel with
  | zero => intro st h; exact h
  | succ fuel ih =>
    intro st h
    simp only [_advance]
    split_ifs with hg
    · exact ih _ (by obtain ⟨hge, -⟩ := hg; simpa using sub_nonneg.2 hge)
    · exact h

theorem advance_exit (segLens : List ℝ) (n : ℕ) :
    ∀ (fuel : ℕ) (st : ℕ × ℝ), st.2 < (fuel : ℝ) * 0.001 →
      ¬ ((_advance segLens n fuel st).2 ≥
            segLens.getD (_advance segLens n fuel st).1 0 ∧
         segLens.getD (_advance segLens n fuel st).1 0 > 0.001) := by
  intro fuel
  induction fuel with
  | zero =>
    intro st h hcon
    obtain ⟨hge, hseg⟩ := hcon
    simp only [_advance] at hge hseg
    norm_num at h
    linarith
  | succ fuel ih =>
    intro st h
    simp only [_advance]
    split_ifs with hg
    · apply ih
      obtain ⟨hge, hseg⟩ := hg
      have hc : ((fuel + 1 : ℕ) : ℝ) * 0.001 = (fuel : ℝ) * 0.001 + 0.001 := by
        push_cast
        ring
      rw [hc] at h
      show st.2 - segLens.getD st.1 0 < (fuel : ℝ) * 0.001
      linarith
    · exact hg

theorem resample_fuel_sufficient (x : ℝ) :
    x < ((⌈x / 0.001⌉₊ : ℝ) + 1) * 0.001 := by
  have h1 : x / 0.001 ≤ (⌈x / 0.001⌉₊ : ℝ) := Nat.le_ceil _
  have h2 : x / 0.001 * 0.001 = x := div_mul_cancel₀ x (by norm_num)
  nlinarith [h1, h2]

theorem resample_step_spec (path : List Point) (spacing : ℝ)
    (hn : 0 < path.length) (hsp : 0 ≤ spacing) (st : ℕ × ℝ × List Point)
    (h1 : st.1 < path.length) (h2 : 0 ≤ st.2.1) :
    (_resample_step path (_segment_lengths path) spacing st).1 < path.length ∧
    0 ≤ (_resample_step path (_segment_lengths path) spacing st).2.1 ∧
    (_resample_step path (_segment_lengths path) spacing st).2.2.length =
      st.2.2.length + 1 ∧
    ∀ q ∈ (_resample_step path (_segment_lengths path) spacing st).2.2,
      q ∈ st.2.2 ∨ IsLerpSample path q := by
  have ha1 : (_advance (_segment_lengths path) path.length (⌈st.2.1 / 0.001⌉₊ + 1)
      (st.1, st.2.1)).1 < path.length :=
    advance_cur_lt _ _ hn _ _ h1
  have ha2 : 0 ≤ (_advance (_segment_lengths path) path.length (⌈st.2.1 / 0.001⌉₊ + 1)
      (st.1, st.2.1)).2 :=
    advance_prog_nonneg _ _ _ _ h2
  have hfuel : ((st.1, st.2.1) : ℕ × ℝ).2 < ((⌈st.2.1 / 0.001⌉₊ + 1 : ℕ) : ℝ) * 0.001 := by
    push_cast
    exact resample_fuel_sufficient st.2.1
  have hexit := advance_exit (_segment_lengths path) path.length
    (⌈st.2.1 / 0.001⌉₊ + 1) (st.1, st.2.1) hfuel
  refine ⟨ha1, add_nonneg ha2 hsp, ?_, ?_⟩
  · simp only [_resample_step]
    simp
  · intro q hq
    simp only [_resample_step] at hq
    rcases List.mem_append.1 hq with hmem | hmem
    · exact Or.inl hmem
    · right
      have hqe := List.mem_singleton.1 hmem
      refine ⟨(_advance (_segment_lengths path) path.length (⌈st.2.1 / 0.001⌉₊ + 1)
          (st.1, st.2.1)).1, ha1,
        (if (_segment_lengths path).getD
              (_advance (_segment_lengths path) path.length (⌈st.2.1 / 0.001⌉₊ + 1)
                (st.1, st.2.1)).1 0 > 0.001
         then (_advance (_segment_lengths path) path.length (⌈st.2.1 / 0.001⌉₊ + 1)
                (st.1, st.2.1)).2 /
              (_segment_lengths path).getD
                (_advance (_segment_lengths path) path.length (⌈st.2.1 / 0.001⌉₊ + 1)
                  (st.1, st.2.1)).1 0
         else 0), ?_, ?_, hqe⟩
      · by_cases hseg : (_segment_lengths path).getD
            (_advance (_segment_lengths path) path.length (⌈st.2.1 / 0.001⌉₊ + 1)
              (st.1, st.2.1)).1 0 > 0.001
        · rw [if_pos hseg]
          exact div_nonneg ha2 (le_of_lt (lt_trans (by norm_num) hseg))
        · rw [if_neg hseg]
      · by_cases hseg : (_segment_lengths path).getD
            (_advance (_segment_lengths path) path.length (⌈st.2.1 / 0.001⌉₊ + 1)
              (st.1, st.2.1)).1 0 > 0.001
        · rw [if_pos hseg]
          have hlt : (_advance (_segment_lengths path) path.length
              (⌈st.2.1 / 0.001⌉₊ + 1) (st.1, st.2.1)).2 <
              (_segment_lengths path).getD
                (_advance (_segment_lengths path) path.length (⌈st.2.1 / 0.001⌉₊ + 1)
                  (st.1, st.2.1)).1 0 := by
            by_contra hge
            push_neg at hge
            exact hexit ⟨hge, hseg⟩
          exact (div_le_one (lt_trans (by norm_num) hseg)).2 hlt.le
        · rw [if_neg hseg]
          norm_num

theorem resample_fold_spec (path : List Point) (spacing : ℝ)
    (hn : 0 < path.length) (hsp : 0 ≤ spacing) (l : List ℕ) :
    ∀ (st : ℕ × ℝ × List Point), st.1 < path.length → 0 ≤ st.2.1 →
      (l.foldl (fun s _ => _resample_step path (_segment_lengths path) spacing s)
          st).1 < path.length ∧
      0 ≤ (l.foldl (fun s _ => _resample_step path (_segment_lengths path) spacing s)
          st).2.1 ∧
      (l.foldl (fun s _ => _resample_step path (_segment_lengths path) spacing s)
          st).2.2.length = st.2.2.length + l.length ∧
      ∀ q ∈ (l.foldl (fun s _ => _resample_step path (_segment_lengths path) spacing s)
          st).2.2, q ∈ st.2.2 ∨ IsLerpSample path q := by
  induction l with
  | nil =>
    intro st h1 h2
    exact ⟨h1, h2, rfl, fun q hq => Or.inl hq⟩
  | cons a t ih =>
    intro st h1 h2
    obtain ⟨s1, s2, s3, s4⟩ := resample_step_spec path spacing hn hsp st h1 h2
    rw [List.foldl_cons]
    obtain ⟨f1, f2, f3, f4⟩ :=
      ih (_resample_step path (_segment_lengths path) spacing st) s1 s2
    refine ⟨f1, f2, ?_, ?_⟩
    · rw [f3, s3, List.length_cons]
      omega
    · intro q hq
      rcases f4 q hq with hmem | hl
      · rcases s4 q hmem with hmem2 | hl2
        · exact Or.inl hmem2
        · exact Or.inr hl2
      · exact Or.inr hl

theorem resample_path_spec (path : List Point) (ts : Option ℝ) (mp : ℕ)
    (h3 : 3 ≤ path.length) :
    (_resample_path_uniform path ts mp).length = _resample_count path ts mp ∧
    ∀ q ∈ _resample_path_uniform path ts mp, IsLerpSample path q := by
  have hn : 0 < path.length := by omega
  have hsp : 0 ≤ _total_length path / ((_resample_count path ts mp : ℕ) : ℝ) :=
    div_nonneg (total_length_nonneg path) (by positivity)
  obtain ⟨-, -, f3, f4⟩ := resample_fold_spec path
    (_total_length path / ((_resample_count path ts mp : ℕ) : ℝ)) hn hsp
    (List.range (_resample_count path ts mp)) (0, 0, []) hn (le_refl 0)
  constructor
  · rw [_resample_path_uniform, if_neg (not_lt.2 h3)]
    rw [f3]
    simp
  · intro q hq
    rw [_resample_path_uniform, if_neg (not_lt.2 h3)] at hq
    rcases f4 q hq with hmem | hl
    · exact absurd hmem (List.not_mem_nil q)
    · exact hl

theorem resample_count_ge (path : List Point) (ts : Option ℝ) (mp : ℕ) :
    mp ≤ _resample_count path ts mp := by
  cases ts with
  | none =>
    have h := le_max_left (max (mp : ℤ) (path.length : ℤ)) (pyInt (_total_length path / 2))
    have h2 := le_max_left (mp : ℤ) (path.length : ℤ)
    simp only [_resample_count.eq_def]
    omega
  | some t =>
    have h := le_max_left (mp : ℤ) (pyInt (_total_length path / t))
    simp only [_resample_count.eq_def]
    omega

/-- C7: with `n ≥ 3` input samples, an explicit `target_spacing` and a
positive `min_points` (so the derived spacing divides by a positive count,
as in every source call), the resampler returns exactly
`max min_points (int (L / target_spacing))` samples (`L` the closed-loop arc
length, `int` Python truncation); every returned sample is the linear
interpolation of one closed-loop segment; and in the track pipeline, which
invokes it with `target_spacing = track_width / 3` and `min_points = 100`,
the conditioned path keeps at least 100 samples. -/
theorem resample_spec (path : List Point) (ts w : ℝ) (min_points : ℕ)
    (h3 : 3 ≤ path.length) (hmp : 0 < min_points) :
    (_resample_path_uniform path (some ts) min_points).length =
      (max (min_points : ℤ) (pyInt (_total_length path / ts))).toNat ∧
    (∀ q ∈ _resample_path_uniform path (some ts) min_points, IsLerpSample path q) ∧
    100 ≤ (_limit_path_curvature
      (_resample_path_uniform path (some (w / 3)) 100) w 50).length := by
  obtain ⟨hlen, hmem⟩ := resample_path_spec path (some ts) min_points h3
  refine ⟨hlen, hmem, ?_⟩
  rw [limit_path_curvature_length, (resample_path_spec path (some (w / 3)) 100 h3).1]
  exact resample_count_ge path (some (w / 3)) 100

/-- Instantiation of the resampling specification at a concrete path: the
conditioned pipeline path keeps at least 100 samples. -/
theorem resample_spec_witness :
    100 ≤ (_limit_path_curvature
      (_resample_path_uniform triPath (some ((2 : ℝ) / 3)) 100) 2 50).length :=
  (resample_spec triPath 1 2 5 (by norm_num [triPath]) (by norm_num)).2.2

/-! ### Configuration error behaviour of the entry points -/

theorem create_track_from_path_isOk (path : List Point)
    (tw tt bh bw : ℝ) (ib : Bool) (loc : Point) (rs : Bool)
    (h : 3 ≤ (_limit_path_curvature
      (if rs then _resample_path_uniform path (some (tw / 3)) 100 else path)
      tw 50).length) :
    (create_track_from_path path tw tt bh bw ib loc rs).isOk = true := by
  simp only [create_track_from_path]
  rw [_create_track_along_path, if_neg (by simp only [List.length_map]; omega)]
  cases ib <;> rfl

/-- C5 corrected: a control-point list of fewer than 3 entries is rejected by
`generate_custom_path` with a descriptive error before any interpolation, but
the size parameters are never validated: `create_track_from_path` accepts any
track width and thickness, including non-positive ones, whenever the
conditioned path keeps at least 3 samples, returning meshes instead of an
error (and never clamping the parameters). -/
theorem config_error_handling :
    (∀ (wps : List (ℝ × ℝ)) (hp : Option (List ℝ)) (sps : ℕ) (b : Bool),
      wps.length < 3 →
      generate_custom_path wps hp sps b =
        .error "at least 3 control points required") ∧
    (∀ (path : List Point) (tw tt bh bw : ℝ) (ib : Bool) (loc : Point),
      3 ≤ path.length →
      (create_track_from_path path tw tt bh bw ib loc false).isOk = true ∧
      (create_track_from_path path tw tt bh bw ib loc true).isOk = true) := by
  constructor
  · intro wps hp sps b h
    rw [generate_custom_path, if_pos h]
  · intro path tw tt bh bw ib loc h
    constructor
    · apply create_track_from_path_isOk
      rw [limit_path_curvature_length]
      simpa using h
    · apply create_track_from_path_isOk
      rw [limit_path_curvature_length]
      have hge := resample_count_ge path (some (tw / 3)) 100
      have hr := (resample_path_spec path (some (tw / 3)) 100 h).1
      simp only [if_pos]
      omega

/-- C5 counterexample: `create_track_from_path` called with a negative track
width and a negative thickness succeeds (returns meshes), so non-positive
size parameters are not rejected with an error before computation. -/
theorem width_not_validated_counterexample :
    ((-1 : ℝ) ≤ 0) ∧ ((-0.3 : ℝ) ≤ 0) ∧
    (create_track_from_path triPath (-1) (-0.3) 0.6 0.12 false (0, 0, 0)
      false).isOk = true := by
  refine ⟨by norm_num, by norm_num, ?_⟩
  apply create_track_from_path_isOk
  rw [limit_path_curvature_length]
  simp [triPath]

/-- Instantiation of the configuration-error behaviour at concrete inputs:
one control point is rejected, and a full pipeline run on a valid 3-sample
path succeeds. -/
theorem config_error_handling_witness :
    generate_custom_path [(0, 0)] none 16 true =
      .error "at least 3 control points required" ∧
    (create_track_from_path triPath 6 0.3 0.6 0.12 true (0, 0, 0) true).isOk = true :=
  ⟨config_error_handling.1 [(0, 0)] none 16 true (by norm_num),
   (config_error_handling.2 triPath 6 0.3 0.6 0.12 true (0, 0, 0)
     (by norm_num [triPath])).2⟩

end TrackGen
